import Mathlib

/-
Shallow embedding of the llk repository core:
- the Pinterest board harvester (`collectImages` / `extractImagesFromPage` in
  the scraper service), modelled as a fuel-indexed loop over a scripted page
  capability, and
- the ZIP packaging pipeline (`createZipArchive` / `generateZip` /
  `getDownloadStream` / `cleanupTask` in zipService.ts), modelled as pure
  state-passing functions over an explicit system state (task registry,
  callback registry, file set, clock).

JavaScript string/number semantics that the code relies on (regex replaces,
`Math.round`, falsy checks on empty strings) are embedded explicitly.
-/

namespace LLK

/-! ### JS string helpers used by zipService.sanitizeFilename and friends -/

/-- Characters matched by the regex class `[<>:"/\\|?*\x00-\x1F]` in
`sanitizeFilename`. -/
def isHostileChar (c : Char) : Bool :=
  ['<', '>', ':', '"', '/', '\\', '|', '?', '*'].contains c || decide (c.toNat < 32)

/-- Characters matched by JavaScript's `\s` class. -/
def isJsSpace (c : Char) : Bool :=
  let n := c.toNat
  (9 ≤ n && n ≤ 13) || n == 32 || n == 160 || n == 5760 ||
  (8192 ≤ n && n ≤ 8202) || n == 8232 || n == 8233 || n == 8239 ||
  n == 8287 || n == 12288 || n == 65279

/-- Global replacement of every maximal `\s+` run by a single `'-'`
(the `.replace(/\s+/g, '-')` step); the boolean flag records whether we are
inside a whitespace run. -/
def collapseWsAux : Bool → List Char → List Char
  | _, [] => []
  | inRun, c :: cs =>
    if isJsSpace c then
      if inRun then collapseWsAux true cs else '-' :: collapseWsAux true cs
    else c :: collapseWsAux false cs

/-- zipService.sanitizeFilename: replace filesystem-hostile characters by `'_'`,
strip leading dots, collapse whitespace runs to `'-'`, truncate to 100
characters. -/
def sanitizeFilename (s : String) : String :=
  let l1 := s.toList.map fun c => if isHostileChar c then '_' else c
  let l2 := l1.dropWhile fun c => c = '.'
  let l3 := collapseWsAux false l2
  String.mk (l3.take 100)

/-- ASCII alphanumeric, the regex class `[a-zA-Z0-9]`. -/
def isAsciiAlnum (c : Char) : Bool :=
  ('a' ≤ c && c ≤ 'z') || ('A' ≤ c && c ≤ 'Z') || ('0' ≤ c && c ≤ '9')

/-- First match of `/\.([a-zA-Z0-9]+)(?:[#?]|$)/` in a character list,
returning the captured group: a dot, then a nonempty maximal alphanumeric run,
followed by `'#'`, `'?'` or the end of the string.  (Backtracking into a
shorter run can never succeed because the following character would be
alphanumeric, so taking the maximal run is faithful.) -/
def extAux : List Char → Option (List Char)
  | [] => none
  | c :: cs =>
    if c = '.' then
      let run := cs.takeWhile isAsciiAlnum
      if run.isEmpty then extAux cs
      else
        match cs.drop run.length with
        | [] => some run
        | r :: _ => if r = '#' || r = '?' then some run else extAux cs
    else extAux cs

/-- zipService.getFileExtension: extension extracted by the regex above,
lowercased; `none` when the URL has no match. -/
def getFileExtension (url : String) : Option String :=
  (extAux url.toList).map fun run => String.mk (run.map Char.toLower)

/-! ### URL canonicalization in extractImagesFromPage -/

/-- Replacement of the first match of `tok` followed by `[^/]*` (greedy) with
`"originals"`, i.e. the JS `src.replace(/236x[^\/]*/, 'originals')` with
`tok = "236x"`. -/
def replaceTokRun (tok : List Char) : List Char → List Char
  | [] => []
  | c :: cs =>
    if tok.isPrefixOf (c :: cs) then
      "originals".toList ++ (((c :: cs).drop tok.length).dropWhile fun d => d ≠ '/')
    else c :: replaceTokRun tok cs

/-- JS `String.prototype.includes` on character lists: some position starts
with `pat`. -/
def includesTok (pat : List Char) : List Char → Bool
  | [] => pat.isEmpty
  | c :: cs => pat.isPrefixOf (c :: cs) || includesTok pat cs

/-- High-resolution rewrite of a raw image source URL: a `236x` low-resolution
path token (else a `474x` one) is replaced, with its trailing non-slash run,
by `originals`; URLs without either token are kept as-is. -/
def canonicalizeUrl (src : String) : String :=
  if includesTok "236x".toList src.toList then
    String.mk (replaceTokRun "236x".toList src.toList)
  else if includesTok "474x".toList src.toList then
    String.mk (replaceTokRun "474x".toList src.toList)
  else src

/-! ### btoa-based fallback pin id (Latin-1 base64, first 10 chars) -/

def b64alphabet : List Char :=
  "ABCDEFGHIJKLMNOPQRSTUVWXYZabcdefghijklmnopqrstuvwxyz0123456789+/".toList

def b64digit (n : Nat) : Char := b64alphabet.getD n 'A'

/-- Base64 encoding of a byte list, 3 bytes to 4 sextets with `'='` padding. -/
def btoaBytes : List Nat → List Char
  | [] => []
  | [a] => [b64digit (a / 4), b64digit (a % 4 * 16), '=', '=']
  | [a, b] => [b64digit (a / 4), b64digit (a % 4 * 16 + b / 16), b64digit (b % 16 * 4), '=']
  | a :: b :: c :: rest =>
    b64digit (a / 4) :: b64digit (a % 4 * 16 + b / 16) ::
      b64digit (b % 16 * 4 + c / 64) :: b64digit (c % 64) :: btoaBytes rest

/-- JS `btoa` on a Latin-1 string (code points above 255 would throw in JS;
they are reduced mod 256 here and never exercised by any theorem). -/
def btoa (s : String) : String :=
  String.mk (btoaBytes (s.toList.map fun c => c.toNat % 256))

/-- JS `String.prototype.replace` with a string pattern: remove the first
occurrence of `pat` (replacement by the empty string). -/
def removeFirstLit (pat : List Char) : List Char → List Char
  | [] => []
  | c :: cs =>
    if pat.isPrefixOf (c :: cs) then (c :: cs).drop pat.length
    else c :: removeFirstLit pat cs

/-! ### Harvester data model -/

/-- A harvested item (`PinImage` in sharedTypes). -/
structure PinImage where
  id : String
  url : String
  thumbnail : String
  title : String
  source : String
  deriving Repr, DecidableEq

/-- Raw per-pin data visible to the in-page extraction closure: the image
`src`, the wrapper's `data-test-id` attribute (absent = `null`), and the
trimmed pin-title text (absent = no title element). Pins without an image
element or without a `src` are skipped by the closure before this point. -/
structure RawPin where
  src : String
  testIdAttr : Option String
  titleText : Option String
  deriving Repr, DecidableEq

/-- Extraction of one pin in extractImagesFromPage's evaluated closure:
canonicalize the URL, derive the id from the `data-test-id` attribute with
`pinWrapper-` stripped (falling back to the first 10 base64 chars of the src
when the attribute is missing or the result is empty), default the title. -/
def extractPin (pageUrl : String) (w : RawPin) : PinImage :=
  let highResUrl := canonicalizeUrl w.src
  let attrId :=
    (w.testIdAttr.map fun a => String.mk (removeFirstLit "pinWrapper-".toList a.toList)).getD ""
  let pinId := if attrId = "" then String.mk ((btoa w.src).toList.take 10) else attrId
  let title :=
    match w.titleText with
    | some t => if t = "" then "Pinterest Image" else t
    | none => "Pinterest Image"
  { id := pinId, url := highResUrl, thumbnail := w.src, title := title, source := pageUrl }

/-- extractImagesFromPage: extract every visible pin wrapper. -/
def extractImagesFromPage (pageUrl : String) (batch : List RawPin) : List PinImage :=
  batch.map (extractPin pageUrl)

/-! ### Harvest loop (collectImages) -/

/-- One cycle's observations from a scripted page capability: the extracted
batch, the scroll height measured before scrolling, the height measured after
scroll + settle, and whether a load-more button exists (and is clicked). -/
structure CycleObs where
  batch : List RawPin
  preHeight : Nat
  postHeight : Nat
  loadMore : Bool

/-- A scripted page: observations as a function of the cycle index. -/
def PageScript : Type := Nat → CycleObs

/-- Mutable state of the collectImages while-loop. -/
structure LoopState where
  images : List PinImage
  seenUrls : List String
  scrollAttempts : Nat
  cycle : Nat
  deriving Repr, DecidableEq

def maxScrollAttempts : Nat := 50

def initLoopState : LoopState :=
  { images := [], seenUrls := [], scrollAttempts := 0, cycle := 0 }

/-- Merge a batch of extracted images into the running collection, skipping
any whose URL is already in `seenUrls` (`if (!seenUrls.has(image.url))`). -/
def mergeNew : LoopState → List PinImage → LoopState
  | st, [] => st
  | st, img :: rest =>
    if st.seenUrls.contains img.url then mergeNew st rest
    else
      mergeNew { st with images := st.images ++ [img], seenUrls := img.url :: st.seenUrls } rest

/-- The collectImages while-loop, fuel-indexed.  Returns the final state and
`true` when the loop exited on its own (condition `scrollAttempts <
maxScrollAttempts` became false, or `break` on a stall with no load-more
button); `false` means the loop was still running after `fuel` iterations.
Per iteration: extract and merge, measure height, scroll, re-measure; on an
unchanged height increment `scrollAttempts` and try the load-more button
(continue if clicked, break otherwise); on a changed height reset
`scrollAttempts` to 0. -/
def runCollect (pageUrl : String) (script : PageScript) : LoopState → Nat → LoopState × Bool
  | st, 0 => (st, false)
  | st, fuel + 1 =>
    if st.scrollAttempts < maxScrollAttempts then
      let obs := script st.cycle
      let st1 := mergeNew st (extractImagesFromPage pageUrl obs.batch)
      if obs.postHeight = obs.preHeight then
        if obs.loadMore then
          runCollect pageUrl script
            { st1 with scrollAttempts := st1.scrollAttempts + 1, cycle := st.cycle + 1 } fuel
        else ({ st1 with scrollAttempts := st1.scrollAttempts + 1 }, true)
      else
        runCollect pageUrl script { st1 with scrollAttempts := 0, cycle := st.cycle + 1 } fuel
    else (st, true)

/-- collectImages: run the loop from the initial state and return the
collected images together with the termination flag. -/
def collectImages (pageUrl : String) (script : PageScript) (fuel : Nat) :
    List PinImage × Bool :=
  let r := runCollect pageUrl script initLoopState fuel
  (r.1.images, r.2)

/-! ### Zip packaging pipeline (zipService.ts) -/

/-- `Math.round (num / den)` for naturals, `den > 0`:
`⌊num/den + 1/2⌋ = (2*num + den) / (2*den)`. -/
def jsRound (num den : Nat) : Nat := (2 * num + den) / (2 * den)

inductive ZipStatus
  | pending
  | downloading
  | compressing
  | completed
  | failed
  deriving Repr, DecidableEq

/-- One progress snapshot passed to the task's progress callback. -/
structure ZipEvent where
  progress : Nat
  status : ZipStatus
  message : String
  downloadedCount : Nat
  totalCount : Nat
  deriving Repr, DecidableEq

/-- Contents of an archive entry: a remote byte stream fetched from a URL, or
literal text (the failure placeholder buffer). -/
inductive EntryContent
  | remote (url : String)
  | text (t : String)
  deriving Repr, DecidableEq

structure ZipEntry where
  name : String
  content : EntryContent
  deriving Repr, DecidableEq

/-- Name of a successful entry: sanitized `"{title || image-(index+1)}.{ext}"`
with the extension from the URL defaulting to `jpg`. -/
def successEntryName (img : PinImage) (index : Nat) : String :=
  let extension := (getFileExtension img.url).getD "jpg"
  sanitizeFilename
    ((if img.title = "" then "image-" ++ Nat.repr (index + 1) else img.title) ++ "." ++ extension)

/-- Name of a failure placeholder entry: `failed-(index+1).txt`. -/
def failedEntryName (index : Nat) : String := "failed-" ++ Nat.repr (index + 1) ++ ".txt"

/-- The entry appended for item `index`: on successful retrieval the streamed
image bytes under the sanitized name; on failure a placeholder text buffer
`"Download failed for: <url>"`. -/
def itemEntry (ok : Nat → Bool) (index : Nat) (img : PinImage) : ZipEntry :=
  if ok index then { name := successEntryName img index, content := .remote img.url }
  else { name := failedEntryName index, content := .text ("Download failed for: " ++ img.url) }

/-- All entries appended by generateZip's fan-out, one per item, indexed by the
item's position in the filtered list.  (Completion order affects only the
order of appends, not the entry set; entries are listed in index order.) -/
def zipEntries (images : List PinImage) (ok : Nat → Bool) : List ZipEntry :=
  images.enum.map fun p => itemEntry ok p.1 p.2

/-- Downloading-phase progress events (one per item, emitted before that
item's retrieval with the shared `downloadedCount` at that moment), returning
the events and the final downloaded count.  `downloadedCount` is incremented
only after a successful append. -/
def dlEvents (ok : Nat → Bool) (total : Nat) : List PinImage → Nat → Nat → List ZipEvent × Nat
  | [], _, dc => ([], dc)
  | _img :: rest, i, dc =>
    let ev : ZipEvent :=
      { progress := jsRound (dc * 50) total, status := .downloading,
        message := "Downloading image " ++ Nat.repr (i + 1) ++ "/" ++ Nat.repr total ++ "...",
        downloadedCount := dc, totalCount := total }
    let dc2 := if ok i then dc + 1 else dc
    let r := dlEvents ok total rest (i + 1) dc2
    (ev :: r.1, r.2)

/-- The progress events of one generateZip run, serialized: per-item
downloading events, an archiver `progress` event during finalize (percent
`Math.round(downloadedCount/totalCount*100)`), and the `close` event reporting
completion at 100%.  `sizeBytes` is the final archive size (`archive.pointer()`). -/
def zipEvents (images : List PinImage) (ok : Nat → Bool) (sizeBytes : Nat) : List ZipEvent :=
  let total := images.length
  let r := dlEvents ok total images 0 0
  r.1 ++
    [{ progress := jsRound (r.2 * 100) total, status := .compressing,
       message := "Compressing files... (" ++ Nat.repr r.2 ++ "/" ++ Nat.repr total ++ ")",
       downloadedCount := r.2, totalCount := total },
     { progress := 100, status := .completed,
       message := "ZIP created successfully (" ++ Nat.repr sizeBytes ++ " bytes)",
       downloadedCount := total, totalCount := total }]

/-- A stored zip task record. -/
structure ZipTask where
  taskId : String
  boardId : String
  imageIds : List String
  images : List PinImage
  outputPath : String
  createdAt : Nat
  expiresAt : Nat
  deriving Repr, DecidableEq

/-- Observable service state: the task registry, the set of task ids holding a
progress callback, the set of files existing in the download directory, and
the current clock (milliseconds). -/
structure SysState where
  tasks : List (String × ZipTask)
  callbacks : List String
  files : List String
  now : Nat
  deriving Repr, DecidableEq

def lookupTask (st : SysState) (tid : String) : Option ZipTask :=
  (st.tasks.find? fun p => p.1 = tid).map Prod.snd

/-- `Map.set`: replace any previous binding of `tid`. -/
def setTask (st : SysState) (tid : String) (t : ZipTask) : SysState :=
  { st with tasks := (tid, t) :: st.tasks.filter fun p => p.1 ≠ tid }

/-- File creation (`fs.createWriteStream`), set semantics. -/
def addFile (st : SysState) (p : String) : SysState :=
  { st with files := if st.files.contains p then st.files else p :: st.files }

/-- File deletion (`fs.unlink`), set semantics; a no-op when absent. -/
def removeFile (st : SysState) (p : String) : SysState :=
  { st with files := st.files.filter fun q => q ≠ p }

/-- zipService.cleanupTask: when the record exists, delete its output file (if
present) and drop the task record and its progress callback. -/
def cleanupTask (st : SysState) (tid : String) : SysState :=
  match lookupTask st tid with
  | none => st
  | some t =>
    let st1 := removeFile st t.outputPath
    { st1 with tasks := st1.tasks.filter fun p => p.1 ≠ tid,
               callbacks := st1.callbacks.filter fun c => c ≠ tid }

/-- Fixed 24-hour retention window in milliseconds. -/
def retentionMs : Nat := 24 * 60 * 60 * 1000

/-- `path.join(downloadDir, taskId + '.zip')`. -/
def outputPathFor (tid : String) : String := "downloads/" ++ tid ++ ".zip"

/-- Indexes filtered by `selectedIds` when non-empty
(`images.filter(img => imageIds.includes(img.id))`), all images otherwise. -/
def filterImages (images : List PinImage) (imageIds : List String) : List PinImage :=
  if imageIds = [] then images else images.filter fun img => imageIds.contains img.id

/-- Result value of a successful createZipArchive call. -/
structure CreateResult where
  taskId : String
  downloadUrl : String
  entries : List ZipEntry
  events : List ZipEvent
  expiresAt : Nat
  deriving Repr, DecidableEq

/-- zipService.createZipArchive over the explicit state.  External
nondeterminism is passed in: `tid` (the fresh uuid), `ok` (which per-item
retrievals succeed), `archiveFail` (an archiver/stream error message, `none`
when zip generation succeeds), `sizeBytes` (final file size).  Filters the
images, fails on an empty selection before creating any state, otherwise
records the task (and callback), writes the output file, and either returns
the handle or — when zip generation fails — cleans up and rethrows. -/
def createZipArchive (st : SysState) (tid boardId : String) (images : List PinImage)
    (imageIds : List String) (hasCallback : Bool) (ok : Nat → Bool)
    (archiveFail : Option String) (sizeBytes : Nat) :
    SysState × Except String CreateResult :=
  let filteredImages := filterImages images imageIds
  if filteredImages = [] then (st, .error "No images selected for download")
  else
    let outputPath := outputPathFor tid
    let expiresAt := st.now + retentionMs
    let task : ZipTask :=
      { taskId := tid, boardId := boardId, imageIds := imageIds, images := filteredImages,
        outputPath := outputPath, createdAt := st.now, expiresAt := expiresAt }
    let st1 := setTask st tid task
    let st2 :=
      if hasCallback then { st1 with callbacks := tid :: st1.callbacks.filter fun c => c ≠ tid }
      else st1
    let st3 := addFile st2 outputPath
    match archiveFail with
    | some msg => (cleanupTask st3 tid, .error msg)
    | none =>
      (st3, .ok { taskId := tid, downloadUrl := "/api/download/" ++ tid,
                  entries := zipEntries filteredImages ok,
                  events := zipEvents filteredImages ok sizeBytes,
                  expiresAt := expiresAt })

/-- zipService.getDownloadStream: not-found when the record is missing;
expired (after an eager cleanup) when the clock has passed `expiresAt`;
not-found when the backing file is absent; otherwise a stream over the backing
file (represented by its path). -/
def getDownloadStream (st : SysState) (tid : String) : SysState × Except String String :=
  match lookupTask st tid with
  | none => (st, .error "Download task not found")
  | some task =>
    if task.expiresAt < st.now then (cleanupTask st tid, .error "Download expired")
    else if st.files.contains task.outputPath then (st, .ok task.outputPath)
    else (st, .error "Download file not found")

/-! ### Concrete sample data used by witnesses and counterexamples -/

/-- A scripted page whose scrollable extent strictly grows on every cycle and
offers no load-more control. -/
def growScript : PageScript := fun i =>
  { batch := [], preHeight := i, postHeight := i + 1, loadMore := false }

/-- A scripted page that stalls on every cycle but always has a clickable
load-more control. -/
def stallLoadScript : PageScript := fun _ =>
  { batch := [], preHeight := 5, postHeight := 5, loadMore := true }

/-- A scripted page that stalls on every cycle with no load-more control. -/
def stallNoLoadScript : PageScript := fun _ =>
  { batch := [], preHeight := 5, postHeight := 5, loadMore := false }

/-- Sample item with title `"t"`. -/
def imgA : PinImage :=
  { id := "a", url := "http://host/a.jpg", thumbnail := "http://host/a.jpg",
    title := "t", source := "s" }

/-- A second, distinct sample item with the same title `"t"`. -/
def imgB : PinImage :=
  { id := "b", url := "http://host/b.jpg", thumbnail := "http://host/b.jpg",
    title := "t", source := "s" }

/-- An empty service state. -/
def emptySys : SysState := { tasks := [], callbacks := [], files := [], now := 0 }

/-- A completed sample task expiring at time 5. -/
def taskW : ZipTask :=
  { taskId := "t1", boardId := "b", imageIds := [], images := [imgA],
    outputPath := outputPathFor "t1", createdAt := 0, expiresAt := 5 }

/-- A state holding `taskW` and its backing file, with the clock already past
the task's expiry. -/
def sysExpired : SysState :=
  { tasks := [("t1", taskW)], callbacks := ["t1"], files := [outputPathFor "t1"], now := 10 }

/-- A state holding `taskW` within its retention window but with the backing
file missing. -/
def sysNoFile : SysState :=
  { tasks := [("t1", taskW)], callbacks := ["t1"], files := [], now := 3 }

/-- The first downloading event of a one-item run where the item succeeds. -/
def evW : ZipEvent :=
  { progress := 0, status := .downloading, message := "Downloading image 1/1...",
    downloadedCount := 0, totalCount := 1 }

/-! ### Helper lemmas -/

theorem lookupTask_setTask (st : SysState) (tid : String) (t : ZipTask) :
    lookupTask (setTask st tid t) tid = some t := by
  simp [lookupTask, setTask, List.find?]

theorem lookupTask_addFile (st : SysState) (p tid : String) :
    lookupTask (addFile st p) tid = lookupTask st tid := by
  simp [lookupTask, addFile]

theorem lookupTask_callbacks (st : SysState) (cb : List String) (tid : String) :
    lookupTask { st with callbacks := cb } tid = lookupTask st tid := rfl

theorem cleanupTask_clears (st : SysState) (tid : String) (t : ZipTask)
    (h : lookupTask st tid = some t) :
    lookupTask (cleanupTask st tid) tid = none ∧
    (cleanupTask st tid).callbacks.contains tid = false ∧
    (cleanupTask st tid).files.contains t.outputPath = false := by
  simp only [cleanupTask, h]
  refine ⟨?_, ?_, ?_⟩
  · simp [lookupTask, removeFile, List.find?_eq_none, List.mem_filter]
  · simp [removeFile]
  · simp [removeFile]

/-! ### C6: empty selection fails without creating state -/

/-- C6.  When the filtered item set is empty (no available items, or a
non-empty selection matching none of them), createZipArchive fails with the
empty-selection error and leaves the service state untouched: no task record,
no callback, and no output file are created. -/
theorem createZipArchive_empty_selection (st : SysState) (tid boardId : String)
    (images : List PinImage) (imageIds : List String) (hasCallback : Bool)
    (ok : Nat → Bool) (archiveFail : Option String) (sizeBytes : Nat)
    (h : filterImages images imageIds = []) :
    createZipArchive st tid boardId images imageIds hasCallback ok archiveFail sizeBytes =
      (st, .error "No images selected for download") := by
  simp [createZipArchive, h]

/-- Witness for C6: one available item, a selection naming a different id. -/
theorem createZipArchive_empty_selection_witness :
    createZipArchive emptySys "t1" "b" [imgA] ["zz"] false (fun _ => true) none 0 =
      (emptySys, .error "No images selected for download") :=
  createZipArchive_empty_selection emptySys "t1" "b" [imgA] ["zz"] false
    (fun _ => true) none 0 (by decide)

/-! ### C7: download stream errors -/

/-- C7.  getDownloadStream fails with the not-found error when no task record
exists; fails with the expired error when the clock is past the task's
`expiresAt`, and in that case eagerly reclaims the artifact so the backing
file no longer exists afterwards; and fails with the (file) not-found error
when the record exists, is unexpired, but the backing file is absent. -/
theorem getDownloadStream_spec (st : SysState) (tid : String) :
    (lookupTask st tid = none →
      getDownloadStream st tid = (st, .error "Download task not found")) ∧
    (∀ t, lookupTask st tid = some t → t.expiresAt < st.now →
      (getDownloadStream st tid).2 = .error "Download expired" ∧
      ((getDownloadStream st tid).1.files.contains t.outputPath) = false) ∧
    (∀ t, lookupTask st tid = some t → ¬ t.expiresAt < st.now →
      st.files.contains t.outputPath = false →
      getDownloadStream st tid = (st, .error "Download file not found")) := by
  refine ⟨?_, ?_, ?_⟩
  · intro h; simp [getDownloadStream, h]
  · intro t h hexp
    refine ⟨?_, ?_⟩
    · simp [getDownloadStream, h, hexp]
    · simp [getDownloadStream, h, hexp, cleanupTask, removeFile]
  · intro t h hexp hfile
    have hmem : t.outputPath ∉ st.files := by simpa using hfile
    simp [getDownloadStream, h, hexp, hmem]

/-- Witness for C7: the expired branch on `sysExpired` (clock 10, expiry 5)
reports the expired error and deletes the backing file, and the
missing-record branch on the empty state reports not-found. -/
theorem getDownloadStream_spec_witness :
    (getDownloadStream sysExpired "t1").2 = .error "Download expired" ∧
    ((getDownloadStream sysExpired "t1").1.files.contains (outputPathFor "t1")) = false ∧
    getDownloadStream emptySys "t1" = (emptySys, .error "Download task not found") := by
  refine ⟨?_, ?_, ?_⟩
  · exact ((getDownloadStream_spec sysExpired "t1").2.1 taskW (by decide) (by decide)).1
  · exact ((getDownloadStream_spec sysExpired "t1").2.1 taskW (by decide) (by decide)).2
  · exact (getDownloadStream_spec emptySys "t1").1 (by decide)

/-! ### C10: error path cleans up all per-call state -/

/-- C10.  When zip generation fails after the task record was created,
createZipArchive surfaces the error to the caller, and first removes the task
record, the progress callback and the partially-written output file: no
residual state for the call remains. -/
theorem createZipArchive_error_cleanup (st : SysState) (tid boardId : String)
    (images : List PinImage) (imageIds : List String) (hasCallback : Bool)
    (ok : Nat → Bool) (msg : String) (sizeBytes : Nat)
    (h : filterImages images imageIds ≠ []) :
    (createZipArchive st tid boardId images imageIds hasCallback ok (some msg) sizeBytes).2 =
      .error msg ∧
    lookupTask (createZipArchive st tid boardId images imageIds hasCallback ok
      (some msg) sizeBytes).1 tid = none ∧
    ((createZipArchive st tid boardId images imageIds hasCallback ok
      (some msg) sizeBytes).1.callbacks.contains tid) = false ∧
    ((createZipArchive st tid boardId images imageIds hasCallback ok
      (some msg) sizeBytes).1.files.contains (outputPathFor tid)) = false := by
  cases hasCallback with
  | false =>
    simp only [createZipArchive, if_neg h, Bool.false_eq_true, if_false]
    have hl : lookupTask (addFile (setTask st tid
        { taskId := tid, boardId := boardId, imageIds := imageIds,
          images := filterImages images imageIds, outputPath := outputPathFor tid,
          createdAt := st.now, expiresAt := st.now + retentionMs }) (outputPathFor tid)) tid =
        some { taskId := tid, boardId := boardId, imageIds := imageIds,
               images := filterImages images imageIds, outputPath := outputPathFor tid,
               createdAt := st.now, expiresAt := st.now + retentionMs } := by
      rw [lookupTask_addFile, lookupTask_setTask]
    have hc := cleanupTask_clears _ tid _ hl
    exact ⟨trivial, hc.1, hc.2.1, hc.2.2⟩
  | true =>
    simp only [createZipArchive, if_neg h, if_true]
    have hl : lookupTask (addFile
        { setTask st tid
            { taskId := tid, boardId := boardId, imageIds := imageIds,
              images := filterImages images imageIds, outputPath := outputPathFor tid,
              createdAt := st.now, expiresAt := st.now + retentionMs } with
          callbacks := tid :: (setTask st tid
            { taskId := tid, boardId := boardId, imageIds := imageIds,
              images := filterImages images imageIds, outputPath := outputPathFor tid,
              createdAt := st.now, expiresAt := st.now + retentionMs }).callbacks.filter
              fun c => c ≠ tid } (outputPathFor tid)) tid =
        some { taskId := tid, boardId := boardId, imageIds := imageIds,
               images := filterImages images imageIds, outputPath := outputPathFor tid,
               createdAt := st.now, expiresAt := st.now + retentionMs } := by
      rw [lookupTask_addFile, lookupTask_callbacks, lookupTask_setTask]
    have hc := cleanupTask_clears _ tid _ hl
    exact ⟨trivial, hc.1, hc.2.1, hc.2.2⟩

/-- Witness for C10: a one-item call whose zip generation fails with message
`"boom"` ends with the error and with no task record, callback or file. -/
theorem createZipArchive_error_cleanup_witness :
    (createZipArchive emptySys "t1" "b" [imgA] [] true (fun _ => true)
      (some "boom") 0).2 = .error "boom" ∧
    lookupTask (createZipArchive emptySys "t1" "b" [imgA] [] true (fun _ => true)
      (some "boom") 0).1 "t1" = none ∧
    ((createZipArchive emptySys "t1" "b" [imgA] [] true (fun _ => true)
      (some "boom") 0).1.callbacks.contains "t1") = false ∧
    ((createZipArchive emptySys "t1" "b" [imgA] [] true (fun _ => true)
      (some "boom") 0).1.files.contains (outputPathFor "t1")) = false :=
  createZipArchive_error_cleanup emptySys "t1" "b" [imgA] [] true (fun _ => true)
    "boom" 0 (by decide)

/-! ### C3: all retrievals failing still completes with placeholder entries -/

theorem zipEntries_all_failed (imgs : List PinImage) :
    zipEntries imgs (fun _ => false) = imgs.enum.map fun p =>
      { name := failedEntryName p.1,
        content := EntryContent.text ("Download failed for: " ++ p.2.url) } := by
  simp [zipEntries, itemEntry]

theorem zipEvents_ends_completed (imgs : List PinImage) (ok : Nat → Bool) (sz : Nat) :
    ∃ evs, zipEvents imgs ok sz = evs ++
      [{ progress := 100, status := ZipStatus.completed,
         message := "ZIP created successfully (" ++ Nat.repr sz ++ " bytes)",
         downloadedCount := imgs.length, totalCount := imgs.length }] := by
  refine ⟨(dlEvents ok imgs.length imgs 0 0).1 ++
    [{ progress := jsRound ((dlEvents ok imgs.length imgs 0 0).2 * 100) imgs.length,
       status := ZipStatus.compressing,
       message := "Compressing files... (" ++ Nat.repr (dlEvents ok imgs.length imgs 0 0).2 ++
         "/" ++ Nat.repr imgs.length ++ ")",
       downloadedCount := (dlEvents ok imgs.length imgs 0 0).2,
       totalCount := imgs.length }], ?_⟩
  simp [zipEvents, List.append_assoc]

/-- C3.  When every per-item retrieval fails (and nothing else goes wrong),
createZipArchive still returns successfully: the task ends with a final
`completed` progress event, and the artifact consists entirely of placeholder
text entries, one per filtered item, each containing the failed item's
resource locator — no per-item failure is escalated to a task-level failure. -/
theorem createZipArchive_all_failures_completes (st : SysState) (tid boardId : String)
    (images : List PinImage) (imageIds : List String) (hasCallback : Bool) (sizeBytes : Nat)
    (h : filterImages images imageIds ≠ []) :
    (createZipArchive st tid boardId images imageIds hasCallback (fun _ => false)
        none sizeBytes).2 =
      .ok { taskId := tid, downloadUrl := "/api/download/" ++ tid,
            entries := zipEntries (filterImages images imageIds) (fun _ => false),
            events := zipEvents (filterImages images imageIds) (fun _ => false) sizeBytes,
            expiresAt := st.now + retentionMs } ∧
    zipEntries (filterImages images imageIds) (fun _ => false) =
      (filterImages images imageIds).enum.map (fun p =>
        { name := failedEntryName p.1,
          content := EntryContent.text ("Download failed for: " ++ p.2.url) }) ∧
    (zipEntries (filterImages images imageIds) (fun _ => false)).length =
      (filterImages images imageIds).length ∧
    ∃ evs, zipEvents (filterImages images imageIds) (fun _ => false) sizeBytes = evs ++
      [{ progress := 100, status := ZipStatus.completed,
         message := "ZIP created successfully (" ++ Nat.repr sizeBytes ++ " bytes)",
         downloadedCount := (filterImages images imageIds).length,
         totalCount := (filterImages images imageIds).length }] := by
  refine ⟨?_, zipEntries_all_failed _, ?_, zipEvents_ends_completed _ _ _⟩
  · simp only [createZipArchive, if_neg h]
  · simp [zipEntries, List.enum_length]

/-- Witness for C3: a one-item call whose single retrieval fails. -/
theorem createZipArchive_all_failures_completes_witness :
    (createZipArchive emptySys "t1" "b" [imgA] [] false (fun _ => false) none 0).2 =
      .ok { taskId := "t1", downloadUrl := "/api/download/" ++ "t1",
            entries := zipEntries (filterImages [imgA] []) (fun _ => false),
            events := zipEvents (filterImages [imgA] []) (fun _ => false) 0,
            expiresAt := emptySys.now + retentionMs } :=
  (createZipArchive_all_failures_completes emptySys "t1" "b" [imgA] [] false 0
    (by decide)).1

/-! ### C2: success entry names do not embed the sequence index -/

/-- C2 counterexample.  Two distinct items with the same title and extension
that both succeed receive the same archive entry name `t.jpg`: the success
name is built from the sanitized title alone (no sequence index), so names
can collide. -/
theorem successEntryName_collision_example :
    imgA ≠ imgB ∧
    (zipEntries [imgA, imgB] fun _ => true).map ZipEntry.name = ["t.jpg", "t.jpg"] := by
  refine ⟨by decide, by decide⟩

/-- C2 amended.  A successful item's entry name is computed from its sanitized
title and extension only — the sequence index enters the name only as a
fallback stem when the title is empty (and in failure placeholders) — so any
two successful items with equal nonempty titles and equal extensions receive
identical entry names, regardless of their sequence indexes. -/
theorem successEntryName_title_based (img1 img2 : PinImage) (i j : Nat)
    (ht : img1.title = img2.title) (hne : img1.title ≠ "")
    (hext : getFileExtension img1.url = getFileExtension img2.url) :
    successEntryName img1 i = successEntryName img2 j := by
  have hne2 : img2.title ≠ "" := ht ▸ hne
  simp only [successEntryName, if_neg hne, if_neg hne2, ht, hext]

/-- Witness for the amended C2 at distinct items and indexes 0 and 7. -/
theorem successEntryName_title_based_witness :
    successEntryName imgA 0 = successEntryName imgB 7 :=
  successEntryName_title_based imgA imgB 0 7 rfl (by decide) (by decide)

/-! ### C9: a selection of K matching ids yields exactly K entries -/

theorem length_filter_sel (images : List PinImage) (sel : List String)
    (hids : (images.map PinImage.id).Nodup) (hsel : sel.Nodup)
    (hsub : ∀ s ∈ sel, s ∈ images.map PinImage.id) :
    (images.filter fun img => sel.contains img.id).length = sel.length := by
  have h1 : (images.filter fun img => sel.contains img.id).length
      = ((images.map PinImage.id).filter fun s => sel.contains s).length := by
    rw [← List.countP_eq_length_filter, ← List.countP_eq_length_filter, List.countP_map]
    rfl
  have h3 : ((images.map PinImage.id).filter fun s => sel.contains s).Nodup :=
    hids.filter _
  have h2 : ((images.map PinImage.id).filter fun s => sel.contains s).toFinset
      = sel.toFinset := by
    ext x
    simp only [List.mem_toFinset, List.mem_filter]
    constructor
    · rintro ⟨-, hx⟩; simpa using hx
    · intro hx; exact ⟨hsub x hx, by simpa using hx⟩
  rw [h1, ← List.toFinset_card_of_nodup h3, h2, List.toFinset_card_of_nodup hsel]

/-- C9.  For N available items with pairwise-distinct ids and a selection of K
distinct ids each matching one item, the packaged artifact contains exactly K
entries (successes and failure placeholders combined). -/
theorem createZipArchive_selection_count (st : SysState) (tid boardId : String)
    (images : List PinImage) (sel : List String) (hasCallback : Bool) (ok : Nat → Bool)
    (sizeBytes : Nat)
    (hids : (images.map PinImage.id).Nodup) (hsel : sel.Nodup) (hne : sel ≠ [])
    (hsub : ∀ s ∈ sel, s ∈ images.map PinImage.id) :
    (createZipArchive st tid boardId images sel hasCallback ok none sizeBytes).2 =
      .ok { taskId := tid, downloadUrl := "/api/download/" ++ tid,
            entries := zipEntries (filterImages images sel) ok,
            events := zipEvents (filterImages images sel) ok sizeBytes,
            expiresAt := st.now + retentionMs } ∧
    (zipEntries (filterImages images sel) ok).length = sel.length := by
  have hflt : filterImages images sel = images.filter fun img => sel.contains img.id := by
    simp [filterImages, hne]
  have hlen : (filterImages images sel).length = sel.length := by
    rw [hflt]; exact length_filter_sel images sel hids hsel hsub
  have hnonempty : filterImages images sel ≠ [] := by
    intro h0
    rw [h0] at hlen
    exact hne (List.length_eq_zero.mp hlen.symm)
  refine ⟨?_, ?_⟩
  · simp only [createZipArchive, if_neg hnonempty]
  · simp [zipEntries, List.enum_length, hlen]

/-- Witness for C9: two available items and a selection of one id. -/
theorem createZipArchive_selection_count_witness :
    (createZipArchive emptySys "t1" "bd" [imgA, imgB] ["b"] false (fun _ => true) none 0).2 =
      .ok { taskId := "t1", downloadUrl := "/api/download/" ++ "t1",
            entries := zipEntries (filterImages [imgA, imgB] ["b"]) (fun _ => true),
            events := zipEvents (filterImages [imgA, imgB] ["b"]) (fun _ => true) 0,
            expiresAt := emptySys.now + retentionMs } ∧
    (zipEntries (filterImages [imgA, imgB] ["b"]) (fun _ => true)).length = (["b"] : List String).length :=
  createZipArchive_selection_count emptySys "t1" "bd" [imgA, imgB] ["b"] false
    (fun _ => true) 0 (by decide) (by decide) (by decide) (by decide)

/-! ### C8: progress percent ranges -/

theorem jsRound_le_of (num den b : Nat) (hden : 0 < den)
    (h : 2 * num + den < (b + 1) * (2 * den)) : jsRound num den ≤ b := by
  have h2 : 0 < 2 * den := by omega
  exact Nat.lt_succ_iff.mp ((Nat.div_lt_iff_lt_mul h2).mpr h)

theorem le_jsRound_of (num den b : Nat) (hden : 0 < den)
    (h : b * (2 * den) ≤ 2 * num + den) : b ≤ jsRound num den := by
  have h2 : 0 < 2 * den := by omega
  exact (Nat.le_div_iff_mul_le h2).mpr h

theorem dlEvents_spec (ok : Nat → Bool) (total : Nat) :
    ∀ (imgs : List PinImage) (i dc : Nat), dc + imgs.length ≤ total →
      (∀ e ∈ (dlEvents ok total imgs i dc).1,
        e.status = ZipStatus.downloading ∧ e.totalCount = total ∧
        e.progress = jsRound (e.downloadedCount * 50) total ∧ e.downloadedCount ≤ total) ∧
      (dlEvents ok total imgs i dc).2 ≤ total := by
  intro imgs
  induction imgs with
  | nil =>
    intro i dc h
    exact ⟨by simp [dlEvents], by simpa using h⟩
  | cons img rest ih =>
    intro i dc h
    have hlen : dc + (rest.length + 1) ≤ total := by simpa using h
    have hstep : (if ok i then dc + 1 else dc) + rest.length ≤ total := by
      by_cases hok : ok i
      · simp only [hok, if_true]; omega
      · simp only [hok, Bool.false_eq_true, if_false]; omega
    have hrec := ih (i + 1) (if ok i then dc + 1 else dc) hstep
    constructor
    · intro e he
      rw [dlEvents] at he
      rcases List.mem_cons.mp he with rfl | he2
      · refine ⟨rfl, rfl, rfl, ?_⟩
        show dc ≤ total
        omega
      · exact hrec.1 e he2
    · exact hrec.2

/-- C8 counterexample.  In a one-item run where the item's retrieval fails,
the compressing-phase event reports percent 0, outside the 50–100 range the
claim asserts for that phase. -/
theorem compressing_percent_below_fifty_example :
    ∃ e ∈ zipEvents [imgA] (fun _ => false) 0,
      e.status = ZipStatus.compressing ∧ e.progress < 50 := by
  refine ⟨{ progress := 0, status := .compressing, message := "Compressing files... (0/1)",
            downloadedCount := 0, totalCount := 1 }, by decide, rfl, by decide⟩

/-- C8 amended.  Every downloading-phase event reports percent
`round(done/total*50)`, always within 0–50; the final completed event reports
100; compressing-phase events report `round(done/total*100)`, which lies in
0–100 but is guaranteed to be at least 50 only when at least half of the
items were retrieved successfully. -/
theorem zipEvents_percent_ranges (images : List PinImage) (ok : Nat → Bool) (sizeBytes : Nat)
    (h : images ≠ []) :
    (∀ e ∈ zipEvents images ok sizeBytes, e.status = ZipStatus.downloading →
      e.progress = jsRound (e.downloadedCount * 50) images.length ∧ e.progress ≤ 50) ∧
    (∀ e ∈ zipEvents images ok sizeBytes, e.status = ZipStatus.completed →
      e.progress = 100) ∧
    (∀ e ∈ zipEvents images ok sizeBytes, e.status = ZipStatus.compressing →
      e.progress = jsRound (e.downloadedCount * 100) images.length ∧ e.progress ≤ 100 ∧
      (images.length ≤ 2 * e.downloadedCount → 50 ≤ e.progress)) := by
  have htot : 0 < images.length := List.length_pos.mpr h
  have hd := dlEvents_spec ok images.length images 0 0 (by simp)
  refine ⟨?_, ?_, ?_⟩
  · intro e he hst
    simp only [zipEvents, List.mem_append, List.mem_cons, List.not_mem_nil, or_false] at he
    rcases he with hin | rfl | rfl
    · obtain ⟨-, -, hprog, hdc⟩ := hd.1 e hin
      refine ⟨hprog, ?_⟩
      rw [hprog]
      exact jsRound_le_of _ _ _ htot (by omega)
    · simp at hst
    · simp at hst
  · intro e he hst
    simp only [zipEvents, List.mem_append, List.mem_cons, List.not_mem_nil, or_false] at he
    rcases he with hin | rfl | rfl
    · have hs := (hd.1 e hin).1
      rw [hst] at hs
      exact absurd hs (by decide)
    · simp at hst
    · rfl
  · intro e he hst
    simp only [zipEvents, List.mem_append, List.mem_cons, List.not_mem_nil, or_false] at he
    rcases he with hin | rfl | rfl
    · have hs := (hd.1 e hin).1
      rw [hst] at hs
      exact absurd hs (by decide)
    · have hdc : (dlEvents ok images.length images 0 0).2 ≤ images.length := hd.2
      dsimp only
      refine ⟨rfl, ?_, ?_⟩
      · exact jsRound_le_of _ _ _ htot (by omega)
      · intro hhalf
        exact le_jsRound_of _ _ _ htot (by omega)
    · simp at hst

/-- Witness for the amended C8: the first downloading event of a one-item run
reports percent 0 within the 0–50 range. -/
theorem zipEvents_percent_ranges_witness :
    evW.progress = jsRound (evW.downloadedCount * 50) ([imgA] : List PinImage).length ∧
    evW.progress ≤ 50 :=
  (zipEvents_percent_ranges [imgA] (fun _ => true) 7 (by decide)).1 evW (by decide) rfl

/-! ### Harvest loop lemmas -/

theorem runCollect_zero (pageUrl : String) (script : PageScript) (st : LoopState) :
    runCollect pageUrl script st 0 = (st, false) := rfl

theorem runCollect_succ (pageUrl : String) (script : PageScript) (st : LoopState) (fuel : Nat) :
    runCollect pageUrl script st (fuel + 1) =
      if st.scrollAttempts < maxScrollAttempts then
        if (script st.cycle).postHeight = (script st.cycle).preHeight then
          if (script st.cycle).loadMore then
            runCollect pageUrl script
              { mergeNew st (extractImagesFromPage pageUrl (script st.cycle).batch) with
                scrollAttempts := (mergeNew st
                  (extractImagesFromPage pageUrl (script st.cycle).batch)).scrollAttempts + 1,
                cycle := st.cycle + 1 } fuel
          else
            ({ mergeNew st (extractImagesFromPage pageUrl (script st.cycle).batch) with
               scrollAttempts := (mergeNew st
                 (extractImagesFromPage pageUrl (script st.cycle).batch)).scrollAttempts + 1 },
             true)
        else
          runCollect pageUrl script
            { mergeNew st (extractImagesFromPage pageUrl (script st.cycle).batch) with
              scrollAttempts := 0, cycle := st.cycle + 1 } fuel
      else (st, true) := rfl

theorem mergeNew_scrollAttempts (l : List PinImage) :
    ∀ st : LoopState, (mergeNew st l).scrollAttempts = st.scrollAttempts := by
  induction l with
  | nil => intro st; rfl
  | cons img rest ih =>
    intro st
    rw [mergeNew]
    split
    · exact ih st
    · exact ih _

theorem mergeNew_cycle (l : List PinImage) :
    ∀ st : LoopState, (mergeNew st l).cycle = st.cycle := by
  induction l with
  | nil => intro st; rfl
  | cons img rest ih =>
    intro st
    rw [mergeNew]
    split
    · exact ih st
    · exact ih _

/-! ### C1: the iteration cap does not bound a page that keeps growing -/

theorem runCollect_grow_aux : ∀ (fuel : Nat) (st : LoopState), st.scrollAttempts = 0 →
    (runCollect "" growScript st fuel).2 = false := by
  intro fuel
  induction fuel with
  | zero => intro st _; rfl
  | succ n ih =>
    intro st h
    have h50 : st.scrollAttempts < maxScrollAttempts := by rw [h]; decide
    have hne : ¬ (growScript st.cycle).postHeight = (growScript st.cycle).preHeight := by
      simp [growScript]
    rw [runCollect_succ, if_pos h50, if_neg hne]
    exact ih _ rfl

/-- C1.  Against a scripted page whose scrollable extent strictly grows on
every cycle, the collectImages loop never terminates: because the stall
counter is reset to zero whenever the height changes, `maxScrollAttempts`
bounds only consecutive stalled cycles, so no amount of fuel makes the loop
exit — contradicting the claim that the hard cap bounds total cycles. -/
theorem collectImages_growing_page_never_terminates (fuel : Nat) :
    (collectImages "" growScript fuel).2 = false :=
  runCollect_grow_aux fuel initLoopState rfl

/-! ### C5: a fired load-more affordance does not reset the stall counter -/

/-- C5 counterexample.  One stalled iteration whose load-more affordance fires
leaves the stall counter at 1: the code does not reset it on a successful
affordance (the counter is reset only when the extent changes). -/
theorem stall_affordance_counter_not_reset_example :
    (runCollect "" stallLoadScript initLoopState 1).1.scrollAttempts = 1 ∧
    (runCollect "" stallLoadScript initLoopState 1).1.scrollAttempts ≠ 0 := by
  exact ⟨rfl, by decide⟩

/-- C5 amended.  In every iteration where the measured extent is unchanged the
stall counter is incremented and the load-more affordance is attempted; if the
affordance fires the loop continues with the incremented (not reset) counter —
the counter is reset only by a later iteration whose extent changes — and if
no affordance exists the loop terminates. -/
theorem stall_iteration_spec (pageUrl : String) (script : PageScript) (st : LoopState)
    (fuel : Nat) (hlt : st.scrollAttempts < maxScrollAttempts)
    (hstall : (script st.cycle).postHeight = (script st.cycle).preHeight) :
    ((script st.cycle).loadMore = true →
      runCollect pageUrl script st (fuel + 1) = runCollect pageUrl script
        { mergeNew st (extractImagesFromPage pageUrl (script st.cycle).batch) with
          scrollAttempts := st.scrollAttempts + 1, cycle := st.cycle + 1 } fuel) ∧
    ((script st.cycle).loadMore = false →
      runCollect pageUrl script st (fuel + 1) =
        ({ mergeNew st (extractImagesFromPage pageUrl (script st.cycle).batch) with
           scrollAttempts := st.scrollAttempts + 1 }, true)) := by
  rw [runCollect_succ, if_pos hlt, if_pos hstall, mergeNew_scrollAttempts]
  constructor
  · intro hl
    rw [if_pos hl]
  · intro hl
    rw [if_neg (by simp [hl])]

/-- Witness for the amended C5: a stalled iteration with no affordance breaks
out of the loop with the counter incremented to 1. -/
theorem stall_iteration_spec_witness :
    runCollect "" stallNoLoadScript initLoopState 1 =
      ({ mergeNew initLoopState
           (extractImagesFromPage "" (stallNoLoadScript initLoopState.cycle).batch) with
         scrollAttempts := initLoopState.scrollAttempts + 1 }, true) :=
  (stall_iteration_spec "" stallNoLoadScript initLoopState 0 (by decide) rfl).2 rfl

/-! ### C4: the harvested collection is deduplicated on canonical URLs -/

theorem mergeNew_seen_inv (l : List PinImage) :
    ∀ st : LoopState,
      (∀ u, st.seenUrls.contains u = true ↔ u ∈ st.images.map PinImage.url) →
      (st.images.map PinImage.url).Nodup →
      ((∀ u, (mergeNew st l).seenUrls.contains u = true ↔
          u ∈ (mergeNew st l).images.map PinImage.url) ∧
        ((mergeNew st l).images.map PinImage.url).Nodup) := by
  induction l with
  | nil => intro st h1 h2; exact ⟨h1, h2⟩
  | cons img rest ih =>
    intro st h1 h2
    rw [mergeNew]
    by_cases hc : st.seenUrls.contains img.url = true
    · rw [if_pos hc]
      exact ih st h1 h2
    · rw [if_neg hc]
      have hnotmem : img.url ∉ st.images.map PinImage.url := fun hmem => hc ((h1 img.url).mpr hmem)
      apply ih
      · intro u
        rw [List.contains_cons, Bool.or_eq_true, beq_iff_eq, List.map_append]
        simp only [List.map_cons, List.map_nil, List.mem_append, List.mem_singleton]
        constructor
        · rintro (rfl | hu)
          · exact Or.inr rfl
          · exact Or.inl ((h1 u).mp hu)
        · rintro (hu | rfl)
          · exact Or.inr ((h1 u).mpr hu)
          · exact Or.inl rfl
      · rw [List.map_append]
        rw [List.nodup_append]
        exact ⟨h2, List.nodup_singleton _, by simpa [List.disjoint_singleton] using hnotmem⟩

theorem mergeNew_prov (script : PageScript) (l : List PinImage) :
    ∀ st : LoopState,
      (∀ img ∈ l, ∃ n raw, raw ∈ (script n).batch ∧ img.url = canonicalizeUrl raw.src) →
      (∀ img ∈ st.images, ∃ n raw, raw ∈ (script n).batch ∧ img.url = canonicalizeUrl raw.src) →
      ∀ img ∈ (mergeNew st l).images,
        ∃ n raw, raw ∈ (script n).batch ∧ img.url = canonicalizeUrl raw.src := by
  induction l with
  | nil => intro st _ hst; exact hst
  | cons img rest ih =>
    intro st hl hst
    rw [mergeNew]
    by_cases hc : st.seenUrls.contains img.url = true
    · rw [if_pos hc]
      exact ih st (fun x hx => hl x (List.mem_cons_of_mem _ hx)) hst
    · rw [if_neg hc]
      apply ih _ (fun x hx => hl x (List.mem_cons_of_mem _ hx))
      intro x hx
      rcases List.mem_append.mp hx with hx1 | hx2
      · exact hst x hx1
      · rw [List.mem_singleton.mp hx2]
        exact hl img (List.mem_cons_self _ _)

theorem runCollect_dedup : ∀ (pageUrl : String) (script : PageScript) (fuel : Nat)
    (st : LoopState),
    (∀ u, st.seenUrls.contains u = true ↔ u ∈ st.images.map PinImage.url) →
    (st.images.map PinImage.url).Nodup →
    (∀ img ∈ st.images, ∃ n raw, raw ∈ (script n).batch ∧ img.url = canonicalizeUrl raw.src) →
    (((runCollect pageUrl script st fuel).1.images.map PinImage.url).Nodup ∧
      ∀ img ∈ (runCollect pageUrl script st fuel).1.images,
        ∃ n raw, raw ∈ (script n).batch ∧ img.url = canonicalizeUrl raw.src) := by
  intro pageUrl script fuel
  induction fuel with
  | zero => intro st h1 h2 h3; exact ⟨h2, h3⟩
  | succ n ih =>
    intro st h1 h2 h3
    have hbatch : ∀ img ∈ extractImagesFromPage pageUrl (script st.cycle).batch,
        ∃ m raw, raw ∈ (script m).batch ∧ img.url = canonicalizeUrl raw.src := by
      intro img hmem
      obtain ⟨raw, hraw, rfl⟩ := List.mem_map.mp hmem
      exact ⟨st.cycle, raw, hraw, rfl⟩
    have hm := mergeNew_seen_inv (extractImagesFromPage pageUrl (script st.cycle).batch) st h1 h2
    have hp := mergeNew_prov script (extractImagesFromPage pageUrl (script st.cycle).batch) st
      hbatch h3
    rw [runCollect_succ]
    split
    · split
      · split
        · exact ih _ hm.1 hm.2 hp
        · exact ⟨hm.2, hp⟩
      · exact ih _ hm.1 hm.2 hp
    · exact ⟨h2, h3⟩

/-- C4.  For every scripted sequence of raw extraction batches — including
batches with repeated or overlapping items — the collection returned by the
harvest loop contains no two items with equal canonical URL, and every
collected item's URL is the high-resolution rewrite of some raw item's source
URL from the script. -/
theorem harvest_dedup_canonical_urls (pageUrl : String) (script : PageScript) (fuel : Nat) :
    ((collectImages pageUrl script fuel).1.map PinImage.url).Nodup ∧
    ∀ img ∈ (collectImages pageUrl script fuel).1,
      ∃ n raw, raw ∈ (script n).batch ∧ img.url = canonicalizeUrl raw.src :=
  runCollect_dedup pageUrl script fuel initLoopState (by simp [initLoopState])
    (by simp [initLoopState]) (by simp [initLoopState])

end LLK
